import Mathlib

/-!
Verification of the request-admission and durable-job-scheduling core of the
ui-platform repository, as a shallow embedding in Lean 4.

Timestamps are modelled as integers (seconds); the database tables are
modelled as Lean lists of row structures; each Python function that reads and
writes rows becomes a pure Lean function from the old table (or row) to the
new one.  Statuses are the literal strings the Python code uses.
-/

namespace Scheduler

/-- Configuration knobs from `api/services/scheduler.py` (safe defaults). -/
def MAX_ATTEMPTS : Nat := 5

def LOCK_TTL_SEC : Int := 120

def BACKOFF_BASE_SEC : Nat := 15

def BACKOFF_CAP_SEC : Nat := 600

/-- A row of the `public.jobs` table
(`id, request_id, status, priority, run_at, attempts, last_error, locked_by, locked_at, updated_at`). -/
structure Job where
  id : String
  request_id : String
  status : String
  priority : String
  run_at : Int
  attempts : Nat
  last_error : Option String
  locked_by : Option String
  locked_at : Option Int
  updated_at : Int
deriving Repr, DecidableEq

/-- `_next_run_at`'s delay: `min(BACKOFF_BASE_SEC * (2 ** max(0, attempts - 1)), BACKOFF_CAP_SEC)`.
Lean's truncated `Nat` subtraction coincides with Python's `max(0, attempts - 1)`
for the non-negative attempt counts stored in the table. -/
def nextRunDelay (attempts : Nat) : Nat :=
  min (BACKOFF_BASE_SEC * 2 ^ (attempts - 1)) BACKOFF_CAP_SEC

/-- `_next_run_at(attempts)`: now plus the capped exponential backoff delay. -/
def next_run_at (now : Int) (attempts : Nat) : Int :=
  now + nextRunDelay attempts

/-- `fail_and_reschedule(job_id, error_message)`, acting on the job row it read:
increment the attempt count, then either mark the job `failed` (attempts
reached `MAX_ATTEMPTS`) or re-queue it with backoff. -/
def fail_and_reschedule (now : Int) (job : Job) (error_message : String) : Job :=
  let attempts := job.attempts + 1
  if attempts ≥ MAX_ATTEMPTS then
    { job with
        status := "failed"
        attempts := attempts
        last_error := some error_message
        locked_by := none
        locked_at := none
        updated_at := now }
  else
    { job with
        status := "queued"
        attempts := attempts
        last_error := some error_message
        locked_by := none
        locked_at := none
        run_at := next_run_at now attempts
        updated_at := now }

/-- The row filter of `release_stale_locks`:
`.lte("locked_at", cutoff).eq("status", "processing")` with
`cutoff = now - LOCK_TTL_SEC`.  A SQL `lte` against a NULL `locked_at` matches
no row. -/
def staleLockFilter (now : Int) (job : Job) : Bool :=
  (match job.locked_at with
   | some t => decide (t ≤ now - LOCK_TTL_SEC)
   | none => false)
  && job.status == "processing"

/-- `release_stale_locks()`: update every row matched by `staleLockFilter` to
`status = "queued"`, cleared lock, `run_at = now`. -/
def release_stale_locks (now : Int) (jobs : List Job) : List Job :=
  jobs.map (fun j =>
    if staleLockFilter now j then
      { j with status := "queued", locked_by := none, locked_at := none, run_at := now }
    else j)

/-- `enqueue_job(request_id, priority, run_at)`'s upsert payload: a fresh
queued row with zero attempts and no lock.  `newId` stands for the id the
store generates on insert. -/
def enqueueRow (newId rid priority : String) (run_at now : Int) : Job :=
  { id := newId
    request_id := rid
    status := "queued"
    priority := priority
    run_at := run_at
    attempts := 0
    last_error := none
    locked_by := none
    locked_at := none
    updated_at := now }

/-- The store's `upsert(data, on_conflict="request_id")`: if a row with the
same `request_id` exists it is updated in place (keeping its primary key),
otherwise the new row is appended. -/
def upsertByRequestId (table : List Job) (row : Job) : List Job :=
  if table.any (fun j => j.request_id == row.request_id) then
    table.map (fun j =>
      if j.request_id == row.request_id then { row with id := j.id } else j)
  else table ++ [row]

/-- `enqueue_job(request_id, priority, run_at)`: upsert a queued job row keyed
by `request_id`; `run_at = none` means run ASAP (now). -/
def enqueue_job (table : List Job) (newId rid priority : String) (now : Int)
    (run_at : Option Int) : List Job :=
  upsertByRequestId table (enqueueRow newId rid priority (run_at.getD now) now)

/-- Number of rows of `table` whose `request_id` is `r`. -/
def countRid (table : List Job) (r : String) : Nat :=
  table.countP (fun j => j.request_id == r)

/-- At most one job row per request id. -/
def uniqueRequestIds (table : List Job) : Prop :=
  ∀ r : String, countRid table r ≤ 1

end Scheduler

namespace Scheduler

theorem countRid_map_of_preserving (f : Job → Job)
    (hf : ∀ j : Job, (f j).request_id = j.request_id)
    (table : List Job) (r : String) :
    countRid (table.map f) r = countRid table r := by
  induction table with
  | nil => rfl
  | cons a t ih =>
      simp only [countRid, List.map_cons, List.countP_cons] at *
      rw [hf, ih]

theorem countRid_append (t₁ t₂ : List Job) (r : String) :
    countRid (t₁ ++ t₂) r = countRid t₁ r + countRid t₂ r := by
  simp [countRid, List.countP_append]

theorem countRid_pos_of_any (table : List Job) (r : String)
    (h : table.any (fun j => j.request_id == r) = true) :
    1 ≤ countRid table r := by
  induction table with
  | nil => simp at h
  | cons a t ih =>
      simp only [List.any_cons, Bool.or_eq_true] at h
      simp only [countRid, List.countP_cons]
      rcases h with h | h
      · simp [h]
      · have := ih h
        simp only [countRid] at this
        omega

theorem countRid_eq_zero_of_not_any (table : List Job) (r : String)
    (h : table.any (fun j => j.request_id == r) = false) :
    countRid table r = 0 := by
  induction table with
  | nil => rfl
  | cons a t ih =>
      simp only [List.any_cons, Bool.or_eq_false_iff] at h
      simp only [countRid, List.countP_cons, h.1]
      simpa [countRid] using ih h.2

end Scheduler

namespace Scheduler

/-- A job row that has been stuck in status `running` for longer than
`LOCK_TTL_SEC` (locked at time 0, observed at time 1000). -/
def staleRunningJob : Job :=
  { id := "j1"
    request_id := "r1"
    status := "running"
    priority := "medium"
    run_at := 0
    attempts := 1
    last_error := none
    locked_by := some "worker-1"
    locked_at := some 0
    updated_at := 0 }

/-- C1: the stale-lock sweep is claimed to reset every `running` job whose
lock is older than `LOCK_TTL` back to `queued`.  The code filters on
`status = "processing"` — a request status, never a job status — so a job
stuck in `running` with an expired lock is left completely untouched by
`release_stale_locks`. -/
theorem c1_release_stale_locks_misses_running_jobs :
    staleRunningJob.status = "running" ∧
    staleRunningJob.locked_at = some 0 ∧
    (0 : Int) ≤ 1000 - LOCK_TTL_SEC ∧
    release_stale_locks 1000 [staleRunningJob] = [staleRunningJob] := by
  refine ⟨rfl, rfl, by norm_num [LOCK_TTL_SEC], rfl⟩

/-- C2: `fail_and_reschedule` on a job with attempt count below the maximum
stores exactly one more attempt, never exceeding `MAX_ATTEMPTS`; reaching the
maximum makes the job `failed` (error recorded, lock cleared), otherwise it is
re-queued with the lock cleared. -/
theorem c2_fail_and_reschedule_attempts (now : Int) (job : Job) (err : String)
    (h : job.attempts < MAX_ATTEMPTS) :
    (fail_and_reschedule now job err).attempts = job.attempts + 1 ∧
    (fail_and_reschedule now job err).attempts ≤ MAX_ATTEMPTS ∧
    (job.attempts + 1 = MAX_ATTEMPTS →
      (fail_and_reschedule now job err).status = "failed" ∧
      (fail_and_reschedule now job err).last_error = some err ∧
      (fail_and_reschedule now job err).locked_by = none ∧
      (fail_and_reschedule now job err).locked_at = none) ∧
    (job.attempts + 1 < MAX_ATTEMPTS →
      (fail_and_reschedule now job err).status = "queued" ∧
      (fail_and_reschedule now job err).locked_by = none ∧
      (fail_and_reschedule now job err).locked_at = none) := by
  unfold fail_and_reschedule
  by_cases hc : job.attempts + 1 ≥ MAX_ATTEMPTS
  · rw [if_pos hc]
    exact ⟨rfl, by show job.attempts + 1 ≤ MAX_ATTEMPTS; omega,
      fun _ => ⟨rfl, rfl, rfl, rfl⟩, fun hlt => absurd hlt (by omega)⟩
  · rw [if_neg hc]
    exact ⟨rfl, by show job.attempts + 1 ≤ MAX_ATTEMPTS; omega,
      fun heq => absurd heq (by omega), fun _ => ⟨rfl, rfl, rfl⟩⟩

/-- A job row sitting at one attempt below the maximum. -/
def jobAtLastAttempt : Job :=
  { id := "j9"
    request_id := "r9"
    status := "running"
    priority := "low"
    run_at := 0
    attempts := 4
    last_error := none
    locked_by := some "worker-1"
    locked_at := some 10
    updated_at := 10 }

/-- Witness for C2 at a concrete input: a job at `MAX_ATTEMPTS - 1` attempts
ends up `failed`, not `queued`. -/
theorem c2_fail_and_reschedule_attempts_witness :
    jobAtLastAttempt.attempts < MAX_ATTEMPTS ∧
    (fail_and_reschedule 50 jobAtLastAttempt "boom").status = "failed" :=
  ⟨by decide,
   (((c2_fail_and_reschedule_attempts 50 jobAtLastAttempt "boom" (by decide)).2.2.1)
      (by decide)).1⟩

/-- C3: the backoff delay for attempt count `n ≥ 1` is
`min(base · 2^(n−1), cap)` with base 15 s and cap 600 s, it is monotonically
non-decreasing in `n`, and a non-terminal `fail_and_reschedule` sets the job's
`run_at` to `now` plus exactly this delay at the new attempt count. -/
theorem c3_backoff_delay (n : Nat) (hn : 1 ≤ n) :
    nextRunDelay n = min (BACKOFF_BASE_SEC * 2 ^ (n - 1)) BACKOFF_CAP_SEC ∧
    BACKOFF_BASE_SEC = 15 ∧
    BACKOFF_CAP_SEC = 600 ∧
    (∀ m, n ≤ m → nextRunDelay n ≤ nextRunDelay m) ∧
    (∀ (now : Int) (job : Job) (err : String),
      job.attempts + 1 < MAX_ATTEMPTS →
      (fail_and_reschedule now job err).run_at =
        now + nextRunDelay (job.attempts + 1)) := by
  refine ⟨rfl, rfl, rfl, ?_, ?_⟩
  · intro m hm
    unfold nextRunDelay
    exact min_le_min
      (Nat.mul_le_mul_left _ (Nat.pow_le_pow_right (by norm_num) (Nat.sub_le_sub_right hm 1)))
      (le_refl _)
  · intro now job err hlt
    unfold fail_and_reschedule
    rw [if_neg (by omega)]
    rfl

/-- Witness for C3 at a concrete input: delay at attempt 2 is at most the
delay at attempt 3. -/
theorem c3_backoff_delay_witness : 1 ≤ 2 ∧ nextRunDelay 2 ≤ nextRunDelay 3 :=
  ⟨by decide, (c3_backoff_delay 2 (by decide)).2.2.2.1 3 (by decide)⟩

/-- C5: `enqueue_job` upserts keyed by `request_id`: starting from a table
with at most one row per request id, the table after enqueueing still has at
most one row per request id, exactly one row carries the enqueued request id,
and if a row with that request id already existed the table's length is
unchanged (the row was updated, not duplicated). -/
theorem c5_enqueue_job_upsert (table : List Job) (newId rid priority : String)
    (now : Int) (run_at : Option Int)
    (hu : uniqueRequestIds table) :
    uniqueRequestIds (enqueue_job table newId rid priority now run_at) ∧
    countRid (enqueue_job table newId rid priority now run_at) rid = 1 ∧
    (table.any (fun j => j.request_id == rid) = true →
      (enqueue_job table newId rid priority now run_at).length = table.length) := by
  unfold enqueue_job upsertByRequestId
  by_cases hany : table.any (fun j => j.request_id ==
      (enqueueRow newId rid priority (run_at.getD now) now).request_id) = true
  · rw [if_pos hany]
    have hf : ∀ j : Job,
        ((fun j : Job => if j.request_id ==
            (enqueueRow newId rid priority (run_at.getD now) now).request_id then
            { enqueueRow newId rid priority (run_at.getD now) now with id := j.id }
          else j) j).request_id = j.request_id := by
      intro j
      by_cases hj : j.request_id = rid
      · simp [enqueueRow, hj]
      · simp [enqueueRow, hj]
    refine ⟨?_, ?_, fun _ => by simp⟩
    · intro r
      rw [countRid_map_of_preserving _ hf]
      exact hu r
    · rw [countRid_map_of_preserving _ hf]
      have h1 := countRid_pos_of_any table rid hany
      have h2 := hu rid
      omega
  · rw [if_neg hany]
    have hzero : countRid table rid = 0 :=
      countRid_eq_zero_of_not_any table rid ((Bool.not_eq_true _).mp hany)
    refine ⟨?_, ?_, ?_⟩
    · intro r
      rw [countRid_append]
      by_cases hr : r = rid
      · subst hr
        have h1 : countRid [enqueueRow newId r priority (run_at.getD now) now] r = 1 := by
          simp [countRid, List.countP_cons, enqueueRow]
        omega
      · have : countRid [enqueueRow newId rid priority (run_at.getD now) now] r = 0 := by
          simp [countRid, List.countP_cons, enqueueRow]
          exact fun h => absurd h.symm hr
        rw [this]
        simpa using hu r
    · rw [countRid_append, hzero]
      simp [countRid, List.countP_cons, enqueueRow]
    · intro hc
      exact absurd hc hany

/-- A one-row job table for the C5 witness. -/
def jobsTableOne : List Job :=
  [{ id := "j1"
     request_id := "r1"
     status := "queued"
     priority := "medium"
     run_at := 0
     attempts := 0
     last_error := none
     locked_by := none
     locked_at := none
     updated_at := 0 }]

/-- Witness for C5 at a concrete input: re-enqueueing the already-present
request id keeps exactly one row for it and does not grow the table. -/
theorem c5_enqueue_job_upsert_witness :
    uniqueRequestIds jobsTableOne ∧
    countRid (enqueue_job jobsTableOne "j2" "r1" "high" 5 none) "r1" = 1 ∧
    (enqueue_job jobsTableOne "j2" "r1" "high" 5 none).length = jobsTableOne.length := by
  have hu : uniqueRequestIds jobsTableOne := by
    intro r
    simp only [jobsTableOne, countRid, List.countP_cons, List.countP_nil]
    split <;> simp
  have h := c5_enqueue_job_upsert jobsTableOne "j2" "r1" "high" 5 none hu
  exact ⟨hu, h.2.1, h.2.2 (by decide)⟩

end Scheduler

namespace Predictor

/-- The prediction bundle produced by `analyze_request`
(`total_tokens`, `latency_ms`, `complexity_score`); numeric values are
modelled as rationals. -/
structure Predictions where
  total_tokens : ℚ
  latency_ms : ℚ
  complexity_score : ℚ
deriving Repr, DecidableEq

/-- One priority tier's limits from the `THRESHOLDS` table. -/
structure Limits where
  tokens : ℚ
  latency : ℚ
  complexity : ℚ
deriving Repr, DecidableEq

/-- The `ThresholdResult` pydantic model. -/
structure ThresholdResult where
  passed : Bool
  failed_reasons : List String
  exceeded_dimensions : List String
deriving Repr, DecidableEq

def lowLimits : Limits := { tokens := 300, latency := 300, complexity := 3/10 }

def mediumLimits : Limits := { tokens := 500, latency := 800, complexity := 6/10 }

def highLimits : Limits := { tokens := 1000, latency := 1500, complexity := 1 }

/-- The `THRESHOLDS` dict of `api/logic/predictor.py`. -/
def THRESHOLDS : List (String × Limits) :=
  [("low", lowLimits), ("medium", mediumLimits), ("high", highLimits)]

/-- `THRESHOLDS.get(priority, THRESHOLDS["low"])`. -/
def thresholdsFor (priority : String) : Limits :=
  (THRESHOLDS.lookup priority).getD lowLimits

/-- The `_exceeded` helper: the list of dimensions whose prediction strictly
exceeds its limit, in the fixed order tokens, latency, complexity. -/
def exceededDims (predictions : Predictions) (limits : Limits) : List String :=
  (if predictions.total_tokens > limits.tokens then ["tokens"] else []) ++
  (if predictions.latency_ms > limits.latency then ["latency"] else []) ++
  (if predictions.complexity_score > limits.complexity then ["complexity"] else [])

/-- `check_thresholds(predictions, priority)`. -/
def check_thresholds (predictions : Predictions) (priority : String) : ThresholdResult :=
  let limits := thresholdsFor priority
  let over := exceededDims predictions limits
  let reasons : List String :=
    (if over.contains "tokens" then ["Token limit exceeded"] else []) ++
    (if over.contains "latency" then ["Latency threshold exceeded"] else []) ++
    (if over.contains "complexity" then ["Complexity score too high"] else [])
  { passed := over.length == 0
    failed_reasons := reasons
    exceeded_dimensions := over }

/-- C4: `check_thresholds` passes iff all three metrics are within the tier's
limits; when blocked, the exceeded-dimensions list contains exactly the
exceeded dimensions and nothing else; and on tier `low` with
tokens 500 / latency 100 / complexity 0.1 the result is blocked with exceeded
dimensions `["tokens"]` only. -/
theorem c4_check_thresholds_complete (predictions : Predictions) (priority : String) :
    ((check_thresholds predictions priority).passed = true ↔
      (predictions.total_tokens ≤ (thresholdsFor priority).tokens ∧
       predictions.latency_ms ≤ (thresholdsFor priority).latency ∧
       predictions.complexity_score ≤ (thresholdsFor priority).complexity)) ∧
    ("tokens" ∈ (check_thresholds predictions priority).exceeded_dimensions ↔
      predictions.total_tokens > (thresholdsFor priority).tokens) ∧
    ("latency" ∈ (check_thresholds predictions priority).exceeded_dimensions ↔
      predictions.latency_ms > (thresholdsFor priority).latency) ∧
    ("complexity" ∈ (check_thresholds predictions priority).exceeded_dimensions ↔
      predictions.complexity_score > (thresholdsFor priority).complexity) ∧
    (∀ d ∈ (check_thresholds predictions priority).exceeded_dimensions,
      d = "tokens" ∨ d = "latency" ∨ d = "complexity") ∧
    check_thresholds ⟨500, 100, 1/10⟩ "low" =
      { passed := false
        failed_reasons := ["Token limit exceeded"]
        exceeded_dimensions := ["tokens"] } := by
  refine ⟨?_, ?_, ?_, ?_, ?_, ?_⟩
  case refine_6 =>
    norm_num [check_thresholds, exceededDims, thresholdsFor, THRESHOLDS,
      lowLimits, List.lookup]
    decide
  all_goals
  · unfold check_thresholds exceededDims
    by_cases h1 : predictions.total_tokens > (thresholdsFor priority).tokens <;>
    by_cases h2 : predictions.latency_ms > (thresholdsFor priority).latency <;>
    by_cases h3 : predictions.complexity_score > (thresholdsFor priority).complexity <;>
    simp_all [not_lt, le_of_lt] <;>
    tauto

/-- C10 (implicit): a priority tier outside low/medium/high does not fail;
`check_thresholds` evaluates it against the `"low"` tier's limits, so an
unknown tier is admitted or blocked exactly as if it were low priority. -/
theorem c10_unknown_priority_uses_low (predictions : Predictions) (priority : String)
    (h1 : priority ≠ "low") (h2 : priority ≠ "medium") (h3 : priority ≠ "high") :
    check_thresholds predictions priority = check_thresholds predictions "low" := by
  have hl : thresholdsFor priority = lowLimits := by
    simp [thresholdsFor, THRESHOLDS, List.lookup,
      beq_eq_false_iff_ne.mpr h1, beq_eq_false_iff_ne.mpr h2, beq_eq_false_iff_ne.mpr h3]
  unfold check_thresholds
  rw [hl]
  rfl

/-- Witness for C10 at a concrete input: priority `"urgent"` behaves exactly
like `"low"`. -/
theorem c10_unknown_priority_uses_low_witness :
    ("urgent" : String) ≠ "low" ∧ ("urgent" : String) ≠ "medium" ∧
    ("urgent" : String) ≠ "high" ∧
    check_thresholds ⟨500, 100, 1/10⟩ "urgent" = check_thresholds ⟨500, 100, 1/10⟩ "low" :=
  ⟨by decide, by decide, by decide,
   c10_unknown_priority_uses_low ⟨500, 100, 1/10⟩ "urgent" (by decide) (by decide) (by decide)⟩

end Predictor

namespace RequestHandler

/-- `fastapi.HTTPException(status_code, detail)`. -/
structure HTTPException where
  status_code : Nat
  detail : String
deriving Repr, DecidableEq

def STATUS_COMPLETED : String := "completed"

def STATUS_FAILED : String := "failed"

def STATUS_BELOW_THRESHOLD : String := "below_threshold_suggestions_sent"

/-- A row of the `requests` table, restricted to the columns the lifecycle
operations below read or write. -/
structure RequestRow where
  id : String
  user_id : Option String
  prompt : String
  priority : String
  status : String
  predicted_latency : Option Int
  predicted_tokens : Option Int
  predicted_complexity : Option ℚ
  vector_embedding : Option (List ℚ)
  suggestions : Option (List String)
  request_note : Option String
  executed_at : Option Int
  updated_at : Int
deriving Repr, DecidableEq

/-- The `predictions` dict handed to `update_after_analysis`
(`int(...)`/`float(...)` coercions always yield a value; the embedding may be
absent, in which case `_omit_none` drops the column from the update). -/
structure AnalysisPredictions where
  latency_ms : Int
  total_tokens : Int
  complexity_score : ℚ
  vector_embedding : Option (List ℚ)
deriving Repr, DecidableEq

/-- `update_after_analysis(request_id, predictions, new_status, suggestions)`:
persist predictions and status on the matching row.  The update dict never
contains `executed_at`; `vector_embedding` and `suggestions` are written only
when present (`_omit_none` / the explicit `is not None` check). -/
def update_after_analysis (db : List RequestRow) (request_id : String)
    (predictions : AnalysisPredictions) (new_status : String)
    (suggestions : Option (List String)) (now : Int) : List RequestRow :=
  db.map (fun r =>
    if r.id == request_id then
      { r with
          predicted_latency := some predictions.latency_ms
          predicted_tokens := some predictions.total_tokens
          predicted_complexity := some predictions.complexity_score
          vector_embedding :=
            match predictions.vector_embedding with
            | some v => some v
            | none => r.vector_embedding
          suggestions :=
            match suggestions with
            | some l => some l
            | none => r.suggestions
          status := new_status
          updated_at := now }
    else r)

/-- The `Union[str, List[str]]` argument of `update_request_note`. -/
inductive NoteArg where
  | str (s : String)
  | list (l : List String)
deriving Repr, DecidableEq

/-- `notes_list = [notes] if isinstance(notes, str) else [n for n in notes if n]`. -/
def normalizeNotes : NoteArg → List String
  | .str s => [s]
  | .list l => l.filter (fun n => !(n == ""))

/-- `"\n".join(notes_list)`. -/
def joinNotes (l : List String) : String :=
  String.intercalate "\n" l

/-- `new_note = existing + ("\n" if existing and to_append else "") + to_append`. -/
def appendNote (existing to_append : String) : String :=
  existing ++ (if existing ≠ "" ∧ to_append ≠ "" then "\n" else "") ++ to_append

/-- `update_request_note(request_id, notes)`: no-op on an empty note list;
NotFound when the request row does not exist; Unauthorized when it has no
owning `user_id`; otherwise append (never overwrite) to `request_note`,
newline-joined. -/
def update_request_note (db : List RequestRow) (request_id : String)
    (notes : NoteArg) (now : Int) : Except HTTPException (List RequestRow) :=
  let notes_list := normalizeNotes notes
  if notes_list.isEmpty then .ok db
  else
    match db.find? (fun r => r.id == request_id) with
    | none => .error ⟨404, "Request not found"⟩
    | some row =>
      if row.user_id.getD "" = "" then
        .error ⟨401, "Unauthorized: invalid or unverified user/API key."⟩
      else
        let new_note := appendNote (row.request_note.getD "") (joinNotes notes_list)
        .ok (db.map (fun r =>
          if r.id == request_id then
            { r with request_note := some new_note, updated_at := now }
          else r))

/-- A row of the `vector_index` table as built by `finalize_execution`. -/
structure VectorIndexRow where
  requests_id : String
  executed_end : Int
  actual_latency : Int
  actual_token_usage : Int
  answer : Option String
  reasoning_summary : Option String
  vector_embedding : Option (List ℚ)
deriving Repr, DecidableEq

/-- The `execution_metrics` dict handed to `finalize_execution`. -/
structure ExecutionMetrics where
  executed_end : Option Int
  actual_latency : Int
  actual_token_usage : Int
  answer : Option String
  reasoning_summary : Option String
deriving Repr, DecidableEq

/-- `finalize_execution(request_id, execution_metrics, success)`: insert a
`vector_index` row (carrying the request's snapshot embedding when present),
then flip the request to completed/failed and set `executed_at = now` — the
only place `executed_at` is ever written. -/
def finalize_execution (db : List RequestRow) (vi : List VectorIndexRow)
    (request_id : String) (m : ExecutionMetrics) (success : Bool) (now : Int) :
    List RequestRow × List VectorIndexRow :=
  let emb : Option (List ℚ) :=
    match db.find? (fun r => r.id == request_id) with
    | some row => row.vector_embedding
    | none => none
  let vrow : VectorIndexRow :=
    { requests_id := request_id
      executed_end := m.executed_end.getD now
      actual_latency := m.actual_latency
      actual_token_usage := m.actual_token_usage
      answer := m.answer
      reasoning_summary := m.reasoning_summary
      vector_embedding := emb }
  let db2 := db.map (fun r =>
    if r.id == request_id then
      { r with
          status := if success then STATUS_COMPLETED else STATUS_FAILED
          executed_at := some now
          updated_at := now }
    else r)
  (db2, vi ++ [vrow])

end RequestHandler

namespace RequestHandler

theorem joinNotes_singleton (s : String) : joinNotes [s] = s := rfl

theorem length_pos_of_ne_empty (s : String) (h : s ≠ "") : 0 < s.length := by
  cases s with
  | mk data =>
      cases data with
      | nil => exact absurd rfl h
      | cons c cs => exact Nat.succ_pos _

theorem appendNote_ne_empty (e s : String) (hs : s ≠ "") : appendNote e s ≠ "" := by
  intro hcontra
  have hlen := congrArg String.length hcontra
  rw [appendNote, String.length_append, String.length_append] at hlen
  have hpos := length_pos_of_ne_empty s hs
  have h0 : ("" : String).length = 0 := rfl
  rw [h0] at hlen
  omega

theorem appendNote_of_ne_empty (e s : String) (he : e ≠ "") (hs : s ≠ "") :
    appendNote e s = e ++ "\n" ++ s := by
  rw [appendNote, if_pos ⟨he, hs⟩]

theorem append_newline_ne (e s : String) (hs : s ≠ "") : e ++ "\n" ++ s ≠ e := by
  intro hcontra
  have hlen := congrArg String.length hcontra
  rw [String.length_append, String.length_append] at hlen
  have hpos := length_pos_of_ne_empty s hs
  omega

theorem find_map_of_id_preserving (f : RequestRow → RequestRow)
    (hf : ∀ r : RequestRow, (f r).id = r.id) (db : List RequestRow) (rid : String) :
    (db.map f).find? (fun r => r.id == rid) =
      (db.find? (fun r => r.id == rid)).map f := by
  induction db with
  | nil => rfl
  | cons a t ih =>
      simp only [List.map_cons]
      cases h : (a.id == rid) with
      | true =>
          rw [List.find?_cons_of_pos (p := fun r : RequestRow => r.id == rid) _
              (by show ((f a).id == rid) = true; rw [hf]; exact h),
            List.find?_cons_of_pos (p := fun r : RequestRow => r.id == rid) _ h]
          rfl
      | false =>
          rw [List.find?_cons_of_neg (p := fun r : RequestRow => r.id == rid) _
              (by show ¬((f a).id == rid) = true; rw [hf]; simp [h]),
            List.find?_cons_of_neg (p := fun r : RequestRow => r.id == rid) _ (by simp [h])]
          exact ih

/-- The row updater applied by a successful `update_request_note` call. -/
def noteUpdater (rid note : String) (now : Int) : RequestRow → RequestRow :=
  fun r =>
    if r.id == rid then { r with request_note := some note, updated_at := now }
    else r

theorem noteUpdater_id (rid note : String) (now : Int) (r : RequestRow) :
    (noteUpdater rid note now r).id = r.id := by
  unfold noteUpdater
  split <;> rfl

theorem update_request_note_str_ok (db : List RequestRow) (rid s : String) (now : Int)
    (row : RequestRow) (hfind : db.find? (fun r => r.id == rid) = some row)
    (huser : ¬ row.user_id.getD "" = "") (hs : s ≠ "") :
    update_request_note db rid (.str s) now =
      .ok (db.map (noteUpdater rid (appendNote (row.request_note.getD "") s) now)) := by
  unfold update_request_note
  simp only [normalizeNotes, List.isEmpty_cons, Bool.false_eq_true, if_false]
  rw [hfind]
  simp only [if_neg huser]
  rfl

theorem update_request_note_found_map (db : List RequestRow) (rid s : String)
    (now : Int) (row : RequestRow)
    (hfind : db.find? (fun r => r.id == rid) = some row)
    (huser : ¬ row.user_id.getD "" = "") (hs : s ≠ "") :
    ∃ db1 row1,
      update_request_note db rid (.str s) now = .ok db1 ∧
      db1.find? (fun r => r.id == rid) = some row1 ∧
      row1 = { row with
        request_note := some (appendNote (row.request_note.getD "") s)
        updated_at := now } := by
  have hok := update_request_note_str_ok db rid s now row hfind huser hs
  have hrowpred : (row.id == rid) = true :=
    List.find?_some (p := fun r : RequestRow => r.id == rid) hfind
  refine ⟨_, _, hok, ?_, rfl⟩
  rw [find_map_of_id_preserving _ (noteUpdater_id _ _ _) db rid, hfind]
  show some (noteUpdater rid (appendNote (row.request_note.getD "") s) now row) = _
  unfold noteUpdater
  rw [if_pos hrowpred]

/-- C6: `update_request_note` fails NotFound when the request id does not
exist, fails Unauthorized when the request row has no owning user id, and
otherwise appends the supplied note text newline-joined, keeping the
previously stored note text as an unchanged prefix. -/
theorem c6_update_request_note_spec (db : List RequestRow) (rid s : String)
    (now : Int) (hs : s ≠ "") :
    (db.find? (fun r => r.id == rid) = none →
      update_request_note db rid (.str s) now = .error ⟨404, "Request not found"⟩) ∧
    (∀ row, db.find? (fun r => r.id == rid) = some row →
      (row.user_id.getD "" = "" →
        update_request_note db rid (.str s) now =
          .error ⟨401, "Unauthorized: invalid or unverified user/API key."⟩) ∧
      (row.user_id.getD "" ≠ "" →
        ∃ db2 row2,
          update_request_note db rid (.str s) now = .ok db2 ∧
          db2.find? (fun r => r.id == rid) = some row2 ∧
          row2.request_note = some (appendNote (row.request_note.getD "") s) ∧
          appendNote (row.request_note.getD "") s =
            (row.request_note.getD "") ++
              (if row.request_note.getD "" ≠ "" then "\n" else "") ++ s)) := by
  constructor
  · intro hnone
    unfold update_request_note
    simp only [normalizeNotes, List.isEmpty_cons, Bool.false_eq_true, if_false]
    rw [hnone]
  · intro row hfind
    constructor
    · intro huser
      unfold update_request_note
      simp only [normalizeNotes, List.isEmpty_cons, Bool.false_eq_true, if_false]
      rw [hfind]
      simp only [if_pos huser]
    · intro huser
      obtain ⟨db1, row1, hok, hfind1, hrow1⟩ :=
        update_request_note_found_map db rid s now row hfind huser hs
      refine ⟨db1, row1, hok, hfind1, by rw [hrow1], ?_⟩
      unfold appendNote
      by_cases he : row.request_note.getD "" = ""
      · rw [if_neg (by simp [he]), if_neg (by simp [he])]
      · rw [if_pos ⟨he, hs⟩, if_pos he]

/-- A concrete request row owned by user `u1` with an existing note. -/
def reqRowWithNote : RequestRow :=
  { id := "r1"
    user_id := some "u1"
    prompt := "p"
    priority := "medium"
    status := "analyzing"
    predicted_latency := none
    predicted_tokens := none
    predicted_complexity := none
    vector_embedding := none
    suggestions := none
    request_note := some "old"
    executed_at := none
    updated_at := 0 }

/-- Witness for C6 at a concrete input: appending `"hello"` to a request that
already holds note `"old"` yields `"old\nhello"` — the old text survives as a
prefix. -/
theorem c6_update_request_note_spec_witness :
    ("hello" : String) ≠ "" ∧
    ∃ db2 row2,
      update_request_note [reqRowWithNote] "r1" (.str "hello") 3 = .ok db2 ∧
      db2.find? (fun r => r.id == "r1") = some row2 ∧
      row2.request_note = some (appendNote (reqRowWithNote.request_note.getD "") "hello") ∧
      appendNote (reqRowWithNote.request_note.getD "") "hello" =
        (reqRowWithNote.request_note.getD "") ++
          (if reqRowWithNote.request_note.getD "" ≠ "" then "\n" else "") ++ "hello" :=
  ⟨by decide,
   (((c6_update_request_note_spec [reqRowWithNote] "r1" "hello" 3 (by decide)).2
       reqRowWithNote rfl).2) (by decide)⟩

end RequestHandler

namespace RequestHandler

/-- A request row with no stored note yet, owned by `u1`. -/
def reqRowNoNote : RequestRow :=
  { id := "r1"
    user_id := some "u1"
    prompt := "p"
    priority := "medium"
    status := "analyzing"
    predicted_latency := none
    predicted_tokens := none
    predicted_complexity := none
    vector_embedding := none
    suggestions := none
    request_note := none
    executed_at := none
    updated_at := 0 }

/-- C7 counterexample: `update_request_note` is not idempotent.  Appending
note `"a"` once stores `"a"`; calling again with the same text stores
`"a\na"`, not `"a"`. -/
theorem c7_update_request_note_not_idempotent :
    update_request_note [reqRowNoNote] "r1" (.str "a") 1 =
      .ok [{ reqRowNoNote with request_note := some "a", updated_at := 1 }] ∧
    update_request_note [{ reqRowNoNote with request_note := some "a", updated_at := 1 }]
        "r1" (.str "a") 2 =
      .ok [{ reqRowNoNote with request_note := some "a\na", updated_at := 2 }] ∧
    some ("a\na" : String) ≠ some ("a" : String) :=
  ⟨rfl, rfl, by decide⟩

/-- C7 (amended): for a non-empty note text, a second `update_request_note`
call with the same text appends it again — the note after the second call is
the note after the first call plus a newline plus the text, hence different
from it.  The operation is an append, not an idempotent set. -/
theorem c7_second_append_extends_note (db : List RequestRow) (rid s : String)
    (now now2 : Int) (row : RequestRow)
    (hfind : db.find? (fun r => r.id == rid) = some row)
    (huser : row.user_id.getD "" ≠ "") (hs : s ≠ "") :
    ∃ db1 row1 db2 row2,
      update_request_note db rid (.str s) now = .ok db1 ∧
      db1.find? (fun r => r.id == rid) = some row1 ∧
      update_request_note db1 rid (.str s) now2 = .ok db2 ∧
      db2.find? (fun r => r.id == rid) = some row2 ∧
      row2.request_note = some ((row1.request_note.getD "") ++ "\n" ++ s) ∧
      row2.request_note ≠ row1.request_note := by
  obtain ⟨db1, row1, hok1, hfind1, hrow1⟩ :=
    update_request_note_found_map db rid s now row hfind huser hs
  have huser1 : ¬ row1.user_id.getD "" = "" := by rw [hrow1]; exact huser
  obtain ⟨db2, row2, hok2, hfind2, hrow2⟩ :=
    update_request_note_found_map db1 rid s now2 row1 hfind1 huser1 hs
  have hn1 : row1.request_note = some (appendNote (row.request_note.getD "") s) := by
    rw [hrow1]
  have hn2 : row2.request_note = some (appendNote (row1.request_note.getD "") s) := by
    rw [hrow2]
  have hne1 : row1.request_note.getD "" ≠ "" := by
    rw [hn1, Option.getD_some]
    exact appendNote_ne_empty _ _ hs
  have happ : appendNote (row1.request_note.getD "") s =
      (row1.request_note.getD "") ++ "\n" ++ s :=
    appendNote_of_ne_empty _ _ hne1 hs
  refine ⟨db1, row1, db2, row2, hok1, hfind1, hok2, hfind2, by rw [hn2, happ], ?_⟩
  rw [hn2, happ, hn1, Option.getD_some]
  intro hcontra
  exact append_newline_ne _ s hs (Option.some.inj hcontra)

/-- Witness for the amended C7 at a concrete input: append `"x"` twice to the
request holding note `"old"`. -/
theorem c7_second_append_extends_note_witness :
    [reqRowWithNote].find? (fun r => r.id == "r1") = some reqRowWithNote ∧
    reqRowWithNote.user_id.getD "" ≠ "" ∧
    ("x" : String) ≠ "" ∧
    ∃ db1 row1 db2 row2,
      update_request_note [reqRowWithNote] "r1" (.str "x") 1 = .ok db1 ∧
      db1.find? (fun r => r.id == "r1") = some row1 ∧
      update_request_note db1 "r1" (.str "x") 2 = .ok db2 ∧
      db2.find? (fun r => r.id == "r1") = some row2 ∧
      row2.request_note = some ((row1.request_note.getD "") ++ "\n" ++ "x") ∧
      row2.request_note ≠ row1.request_note :=
  ⟨rfl, by decide, by decide,
   c7_second_append_extends_note [reqRowWithNote] "r1" "x" 1 2 reqRowWithNote rfl
     (by decide) (by decide)⟩

/-- C8: the analysis-result write never touches `executed_at` — every row's
execution timestamp is unchanged for either outcome status — while
`finalize_execution` sets `executed_at = now` on exactly the finalized
request's row and leaves every other row's `executed_at` alone. -/
theorem c8_executed_at_only_on_finalize (db : List RequestRow) (rid : String)
    (predictions : AnalysisPredictions) (new_status : String)
    (suggestions : Option (List String)) (now : Int)
    (vi : List VectorIndexRow) (m : ExecutionMetrics) (success : Bool) (now2 : Int) :
    (update_after_analysis db rid predictions new_status suggestions now).map
        (fun r => r.executed_at) = db.map (fun r => r.executed_at) ∧
    (finalize_execution db vi rid m success now2).1.map
        (fun r => (r.id, r.executed_at)) =
      db.map (fun r => (r.id, if r.id == rid then some now2 else r.executed_at)) := by
  constructor
  · unfold update_after_analysis
    rw [List.map_map]
    apply List.map_congr_left
    intro r _
    show (fun r => r.executed_at)
      (if (r.id == rid) = true then _ else r) = r.executed_at
    by_cases hr : (r.id == rid) = true
    · rw [if_pos hr]
    · rw [if_neg hr]
  · unfold finalize_execution
    simp only []
    rw [List.map_map]
    apply List.map_congr_left
    intro r _
    show (fun r => (r.id, r.executed_at))
      (if (r.id == rid) = true then _ else r) = _
    by_cases hr : (r.id == rid) = true
    · rw [if_pos hr, if_pos hr]
    · rw [if_neg hr, if_neg hr]

end RequestHandler

namespace Auth

/-- A row of the `users` table as selected by the identity lookups
(`id, email, client_name, provided_user_id, default_priority`). -/
structure UserRow where
  id : String
  email : Option String
  client_name : Option String
  provided_user_id : Option String
  default_priority : Option String
deriving Repr, DecidableEq

/-- `get_user_by_external_id`: first user whose `provided_user_id` equals the
given external alias (`.eq(...).limit(1)`). -/
def get_user_by_external_id (users : List UserRow) (ext : String) : Option UserRow :=
  (users.filter (fun u => u.provided_user_id == some ext)).head?

/-- `get_user_by_id`: first user with the given internal id. -/
def get_user_by_id (users : List UserRow) (uid : String) : Option UserRow :=
  (users.filter (fun u => u.id == uid)).head?

/-- Python truthiness of an optional string: `None` and `""` are falsy. -/
def truthy : Option String → Bool
  | some s => !(s == "")
  | none => false

/-- `a or b` on optional strings: the first operand when truthy, else the
second. -/
def firstTruthy (a b : Option String) : Option String :=
  if truthy a then a else b

/-- The attributes `resolve_user_identity` reads off the incoming request
object: `user_id` and `metadata.get("provided_user_id")`. -/
structure ResolveRequest where
  user_id : Option String
  metadata_provided_user_id : Option String
deriving Repr, DecidableEq

/-- `resolve_user_identity(supabase, request, current_user, x_provided_user_id)`:
strict precedence external alias → internal id → API-key principal → 401. -/
def resolve_user_identity (users : List UserRow) (request : ResolveRequest)
    (current_user : Option UserRow) (x_provided_user_id : Option String) :
    Except RequestHandler.HTTPException (UserRow × List String) :=
  let provided_id := firstTruthy x_provided_user_id request.metadata_provided_user_id
  if truthy provided_id then
    match get_user_by_external_id users (provided_id.getD "") with
    | none => .error ⟨404, "User not found"⟩
    | some row => .ok (row, ["Logged in using external ID"])
  else if request.user_id.isSome then
    match get_user_by_id users (request.user_id.getD "") with
    | none => .error ⟨404, "User not found"⟩
    | some row => .ok (row, ["Logged in using internal ID"])
  else
    match current_user with
    | some cu => .ok (cu, ["Logged in using API-key authentication"])
    | none =>
      .error ⟨401,
        "Authentication required: provide X-Provided-User-Id, user_id, or a valid X-API-Key."⟩

/-- C9: when a valid external alias is supplied alongside an authenticated
principal, resolution takes the external-alias path: it returns the user the
alias lookup finds, and fails NotFound when the lookup finds none — the
authenticated principal is never used as a fallback. -/
theorem c9_external_alias_precedence (users : List UserRow)
    (request : ResolveRequest) (cu : UserRow) (x : Option String)
    (hp : truthy (firstTruthy x request.metadata_provided_user_id) = true) :
    (∀ row, get_user_by_external_id users
        ((firstTruthy x request.metadata_provided_user_id).getD "") = some row →
      resolve_user_identity users request (some cu) x =
        .ok (row, ["Logged in using external ID"])) ∧
    (get_user_by_external_id users
        ((firstTruthy x request.metadata_provided_user_id).getD "") = none →
      resolve_user_identity users request (some cu) x =
        .error ⟨404, "User not found"⟩) := by
  constructor
  · intro row hrow
    unfold resolve_user_identity
    simp only [if_pos hp]
    rw [hrow]
  · intro hnone
    unfold resolve_user_identity
    simp only [if_pos hp]
    rw [hnone]

/-- The allow-listed user carrying external alias `ext1`. -/
def aliasUser : UserRow :=
  { id := "u1"
    email := some "a@b.c"
    client_name := none
    provided_user_id := some "ext1"
    default_priority := some "medium" }

/-- A distinct principal already authenticated via API key. -/
def apiKeyUser : UserRow :=
  { id := "u2"
    email := some "d@e.f"
    client_name := none
    provided_user_id := none
    default_priority := some "high" }

/-- Witness for C9 at a concrete input: with header alias `"ext1"` and an
authenticated API-key principal, resolution returns the alias user, not the
principal. -/
theorem c9_external_alias_precedence_witness :
    truthy (firstTruthy (some "ext1")
      (ResolveRequest.mk none none).metadata_provided_user_id) = true ∧
    resolve_user_identity [aliasUser] ⟨none, none⟩ (some apiKeyUser) (some "ext1") =
      .ok (aliasUser, ["Logged in using external ID"]) :=
  ⟨by decide,
   (c9_external_alias_precedence [aliasUser] ⟨none, none⟩ apiKeyUser (some "ext1")
      (by decide)).1 aliasUser rfl⟩

end Auth
